import Mathlib

/-!
Verification of the `laba` store-and-forward voice-message relay.

The Go sources are shallowly embedded: bytes are `Nat` values below 256,
UUIDs are raw 16-byte lists (mirroring `uuid.UUID`'s `[16]byte`), machine
integers are `Nat` with explicit `% 2 ^ w` where the Go code truncates,
and the external key-value service (valkey) is a pure association-list
state threaded through the handlers, with its documented atomic-increment
semantics.  Fallible operations return `Except` / `Option`.
-/

namespace Laba

/-! ## Bytes, big-endian integers and raw UUIDs (`encoding/binary`, `google/uuid`) -/

/-- A UUID as its raw 16-byte representation, as in `uuid.UUID`'s `[16]byte`. -/
abbrev UUIDb := List Nat

/-- `uuid.Nil`: the all-zero UUID. -/
def uuidNil : UUIDb := List.replicate 16 0

/-- Big-endian bytes of a `uint32`, as written by `binary.Write(..., BigEndian, v)`. -/
def u32be (n : Nat) : List Nat :=
  [n / 2 ^ 24 % 256, n / 2 ^ 16 % 256, n / 2 ^ 8 % 256, n % 256]

/-- Big-endian bytes of a `uint16`. -/
def u16be (n : Nat) : List Nat :=
  [n / 2 ^ 8 % 256, n % 256]

/-- Value of a big-endian byte string, as read by `binary.Read(..., BigEndian, &v)`. -/
def beVal (l : List Nat) : Nat :=
  l.foldl (fun acc b => acc * 256 + b) 0

/-- The byte of `data` at index `i` (indices below the length are always in
range at every use site). -/
def byteAt (data : List Nat) (i : Nat) : Nat :=
  data.getD i 0

/-- The `len`-byte field of `data` starting at offset `off`. -/
def fieldAt (data : List Nat) (off len : Nat) : List Nat :=
  (data.drop off).take len

/-- `bytes.Reader.Read` into a zero-initialised buffer of size `n`: copies the
available bytes and leaves the rest of the buffer zero. -/
def readPad (n : Nat) (l : List Nat) : List Nat :=
  l.take n ++ List.replicate (n - l.length) 0

/-- Every entry of the list is a byte value. -/
def bytesWF (l : List Nat) : Prop :=
  ∀ b ∈ l, b < 256

instance (l : List Nat) : Decidable (bytesWF l) := by
  unfold bytesWF; infer_instance

/-! ## CRC-32 (IEEE), `hash/crc32.ChecksumIEEE`

Bit-by-bit form of the reflected CRC-32 with polynomial `0xEDB88320`,
initial value `0xFFFFFFFF` and final xor `0xFFFFFFFF`, which is the
function Go's table-driven `ChecksumIEEE` computes. -/

def crc32Poly : Nat := 0xEDB88320

/-- One bit step: shift right, xor the polynomial if the low bit was set. -/
def crc32Round (c : Nat) : Nat :=
  if c % 2 = 1 then (c / 2) ^^^ crc32Poly else c / 2

/-- Fold one byte into the running CRC: xor it in, then eight bit rounds. -/
def crc32Byte (c b : Nat) : Nat :=
  crc32Round (crc32Round (crc32Round (crc32Round
    (crc32Round (crc32Round (crc32Round (crc32Round (c ^^^ b))))))))

/-- `crc32.ChecksumIEEE` over a byte string. -/
def crc32 (data : List Nat) : Nat :=
  (data.foldl crc32Byte 0xFFFFFFFF) ^^^ 0xFFFFFFFF

/-! ## Packet layout (`internal/udp/packet.go`) -/

def PacketTypeAuth : Nat := 0x01
def PacketTypeAuthAck : Nat := 0x02
def PacketTypeVoiceData : Nat := 0x03
def PacketTypeAck : Nat := 0x04
def PacketTypeHeartbeat : Nat := 0x05
def PacketTypeListMessages : Nat := 0x06
def PacketTypeMessageList : Nat := 0x07
def PacketTypeDownloadMsg : Nat := 0x08
def PacketTypeError : Nat := 0xFF

def ProtocolVersion : Nat := 0x01
def MaxPayloadSize : Nat := 1400
def MaxPacketSize : Nat := 2048

/-- `udp.Packet`.  `version`, `type_` are `uint8`; `chunkIndex`, `totalChunks`,
`checksum` are `uint32`; `payloadLen` is `uint16`; the ids are raw 16 bytes. -/
structure Packet where
  version : Nat
  type_ : Nat
  messageID : UUIDb
  chunkIndex : Nat
  totalChunks : Nat
  senderID : UUIDb
  recipientID : UUIDb
  checksum : Nat
  payloadLen : Nat
  payload : List Nat
deriving DecidableEq, Repr

/-- The invariants the Go field types and the §3 packet invariants impose:
single-byte fields below 256, ids of 16 raw bytes, 32-bit counters, the
checksum field equal to the payload CRC and the length field equal to the
payload length. -/
def Packet.WellFormed (p : Packet) : Prop :=
  p.version < 256 ∧ p.type_ < 256 ∧
  p.messageID.length = 16 ∧ bytesWF p.messageID ∧
  p.chunkIndex < 2 ^ 32 ∧ p.totalChunks < 2 ^ 32 ∧
  p.senderID.length = 16 ∧ bytesWF p.senderID ∧
  p.recipientID.length = 16 ∧ bytesWF p.recipientID ∧
  p.checksum = crc32 p.payload ∧ p.payloadLen = p.payload.length ∧
  bytesWF p.payload

instance (p : Packet) : Decidable p.WellFormed := by
  unfold Packet.WellFormed; infer_instance

/-- The mutation `Packet.Marshal` performs on its receiver before writing:
it recomputes `Checksum = crc32(Payload)` and sets `PayloadLen = len(Payload)`. -/
def Packet.marshalFinal (p : Packet) : Packet :=
  { p with checksum := crc32 p.payload, payloadLen := p.payload.length }

/-- The byte string assembled by the sequence of buffer writes in
`Packet.Marshal`: version, type, message id, chunk index, total chunks,
sender id, recipient id, payload CRC, payload length, payload. -/
def mkBytes (v t ci tc ck pl : Nat) (mid sid rid pay : List Nat) : List Nat :=
  v :: t :: (mid ++ (u32be ci ++ (u32be tc ++ (sid ++ (rid ++
    (u32be ck ++ (u16be pl ++ pay)))))))

/-- The bytes `Packet.Marshal` emits for `p`, with the checksum recomputed
from the payload and the length field set to the payload length, as the Go
code does before serialising. -/
def Packet.marshalBytes (p : Packet) : List Nat :=
  mkBytes p.version p.type_ p.chunkIndex p.totalChunks (crc32 p.payload)
    p.payload.length p.messageID p.senderID p.recipientID p.payload

/-- `Packet.Marshal`: fails when the payload exceeds `MaxPayloadSize`,
otherwise emits `marshalBytes`. -/
def Packet.marshal (p : Packet) : Except String (List Nat) :=
  if p.payload.length > MaxPayloadSize then
    .error "payload size exceeds maximum"
  else
    .ok p.marshalBytes

/-- `udp.Unmarshal`.  The Go code checks `len(data) < 48` up front and then
reads sequentially from a `bytes.Reader`: the reads up to the sender id
(offset 42) always have their bytes; the recipient-id `Read` silently
zero-pads when fewer than 16 bytes remain; the 4-byte checksum and 2-byte
payload-length `binary.Read`s fail with an EOF error unless the data
reaches offsets 62 and 64; a positive payload length with no bytes left
is an EOF, and otherwise the payload buffer is zero-padded and its CRC is
compared with the checksum field. -/
def Unmarshal (data : List Nat) : Except String Packet :=
  if data.length < 48 then .error "packet too small"
  else if data.length < 62 then .error "EOF"
  else if data.length < 64 then .error "EOF"
  else
    let version := byteAt data 0
    let type_ := byteAt data 1
    let messageID := fieldAt data 2 16
    let chunkIndex := beVal (fieldAt data 18 4)
    let totalChunks := beVal (fieldAt data 22 4)
    let senderID := fieldAt data 26 16
    let recipientID := readPad 16 (fieldAt data 42 16)
    let checksum := beVal (fieldAt data 58 4)
    let payloadLen := beVal (fieldAt data 62 2)
    if payloadLen > 0 then
      if data.length = 64 then .error "EOF"
      else
        let payload := readPad payloadLen (data.drop 64)
        if crc32 payload ≠ checksum then .error "checksum mismatch"
        else .ok ⟨version, type_, messageID, chunkIndex, totalChunks,
                  senderID, recipientID, checksum, payloadLen, payload⟩
    else
      .ok ⟨version, type_, messageID, chunkIndex, totalChunks,
           senderID, recipientID, checksum, payloadLen, []⟩

/-- `NewPacket`: version `ProtocolVersion`, the given type and ids, all other
fields Go zero values. -/
def NewPacket (packetType : Nat) (senderID recipientID messageID : UUIDb) : Packet :=
  { version := ProtocolVersion, type_ := packetType, messageID := messageID,
    chunkIndex := 0, totalChunks := 0, senderID := senderID,
    recipientID := recipientID, checksum := 0, payloadLen := 0, payload := [] }

/-- `NewAckPacket`: an ACK whose sender and recipient are the original
packet's recipient and sender, carrying the original message id, chunk
index and total count. -/
def NewAckPacket (originalPacket : Packet) : Packet :=
  { NewPacket PacketTypeAck originalPacket.recipientID originalPacket.senderID
      originalPacket.messageID with
    chunkIndex := originalPacket.chunkIndex,
    totalChunks := originalPacket.totalChunks }

/-- `NewVoiceDataPacket`. -/
def NewVoiceDataPacket (senderID recipientID messageID : UUIDb)
    (chunkIndex totalChunks : Nat) (data : List Nat) : Packet :=
  { NewPacket PacketTypeVoiceData senderID recipientID messageID with
    chunkIndex := chunkIndex, totalChunks := totalChunks, payload := data }

/-! ## Helper lemmas about the byte-level codec -/

theorem u32be_length (n : Nat) : (u32be n).length = 4 := rfl

theorem u16be_length (n : Nat) : (u16be n).length = 2 := rfl

theorem beVal_u32be (n : Nat) (h : n < 2 ^ 32) : beVal (u32be n) = n := by
  simp only [beVal, u32be, List.foldl]
  omega

theorem beVal_u16be (n : Nat) (h : n < 2 ^ 16) : beVal (u16be n) = n := by
  simp only [beVal, u16be, List.foldl]
  omega

theorem crc32Round_lt (c : Nat) (h : c < 2 ^ 32) : crc32Round c < 2 ^ 32 := by
  unfold crc32Round crc32Poly
  split
  · exact Nat.xor_lt_two_pow (by omega) (by norm_num)
  · omega

theorem crc32Byte_lt (c b : Nat) (hc : c < 2 ^ 32) (hb : b < 256) :
    crc32Byte c b < 2 ^ 32 := by
  have h0 : c ^^^ b < 2 ^ 32 := Nat.xor_lt_two_pow hc (by omega)
  unfold crc32Byte
  exact crc32Round_lt _ (crc32Round_lt _ (crc32Round_lt _ (crc32Round_lt _
    (crc32Round_lt _ (crc32Round_lt _ (crc32Round_lt _ (crc32Round_lt _ h0)))))))

theorem crc32_foldl_lt (l : List Nat) (c : Nat) (hc : c < 2 ^ 32)
    (hl : bytesWF l) : l.foldl crc32Byte c < 2 ^ 32 := by
  induction l generalizing c with
  | nil => exact hc
  | cons a t ih =>
    exact ih (crc32Byte c a)
      (crc32Byte_lt c a hc (hl a (List.mem_cons_self a t)))
      (fun b hb => hl b (List.mem_cons_of_mem a hb))

theorem crc32_lt (l : List Nat) (hl : bytesWF l) : crc32 l < 2 ^ 32 :=
  Nat.xor_lt_two_pow (crc32_foldl_lt l _ (by norm_num) hl) (by norm_num)

theorem readPad_length_self (l : List Nat) : readPad l.length l = l := by
  simp [readPad]

/-- Field extraction from the exact byte shape `Packet.marshal` emits. -/
theorem marshal_fields (v t ci tc ck pl : Nat) (mid sid rid pay : List Nat)
    (hm : mid.length = 16) (hs : sid.length = 16) (hr : rid.length = 16) :
    let data := mkBytes v t ci tc ck pl mid sid rid pay
    byteAt data 0 = v ∧ byteAt data 1 = t ∧ fieldAt data 2 16 = mid ∧
    fieldAt data 18 4 = u32be ci ∧ fieldAt data 22 4 = u32be tc ∧
    fieldAt data 26 16 = sid ∧ fieldAt data 42 16 = rid ∧
    fieldAt data 58 4 = u32be ck ∧ fieldAt data 62 2 = u16be pl ∧
    data.drop 64 = pay ∧ data.length = 64 + pay.length := by
  intro data
  have h2 : data.drop 2 = mid ++ (u32be ci ++ (u32be tc ++ (sid ++ (rid ++
      (u32be ck ++ (u16be pl ++ pay)))))) := rfl
  have h18 : data.drop 18 = u32be ci ++ (u32be tc ++ (sid ++ (rid ++
      (u32be ck ++ (u16be pl ++ pay))))) := by
    have : data.drop 18 = (data.drop 2).drop 16 := by
      rw [List.drop_drop]
    rw [this, h2, List.drop_left' hm]
  have h22 : data.drop 22 = u32be tc ++ (sid ++ (rid ++
      (u32be ck ++ (u16be pl ++ pay)))) := by
    have : data.drop 22 = (data.drop 18).drop 4 := by
      rw [List.drop_drop]
    rw [this, h18, List.drop_left' (u32be_length ci)]
  have h26 : data.drop 26 = sid ++ (rid ++ (u32be ck ++ (u16be pl ++ pay))) := by
    have : data.drop 26 = (data.drop 22).drop 4 := by
      rw [List.drop_drop]
    rw [this, h22, List.drop_left' (u32be_length tc)]
  have h42 : data.drop 42 = rid ++ (u32be ck ++ (u16be pl ++ pay)) := by
    have : data.drop 42 = (data.drop 26).drop 16 := by
      rw [List.drop_drop]
    rw [this, h26, List.drop_left' hs]
  have h58 : data.drop 58 = u32be ck ++ (u16be pl ++ pay) := by
    have : data.drop 58 = (data.drop 42).drop 16 := by
      rw [List.drop_drop]
    rw [this, h42, List.drop_left' hr]
  have h62 : data.drop 62 = u16be pl ++ pay := by
    have : data.drop 62 = (data.drop 58).drop 4 := by
      rw [List.drop_drop]
    rw [this, h58, List.drop_left' (u32be_length ck)]
  have h64 : data.drop 64 = pay := by
    have : data.drop 64 = (data.drop 62).drop 2 := by
      rw [List.drop_drop]
    rw [this, h62, List.drop_left' (u16be_length pl)]
  refine ⟨rfl, rfl, ?_, ?_, ?_, ?_, ?_, ?_, ?_, h64, ?_⟩
  · show (data.drop 2).take 16 = mid
    rw [h2, List.take_left' hm]
  · show (data.drop 18).take 4 = u32be ci
    rw [h18, List.take_left' (u32be_length ci)]
  · show (data.drop 22).take 4 = u32be tc
    rw [h22, List.take_left' (u32be_length tc)]
  · show (data.drop 26).take 16 = sid
    rw [h26, List.take_left' hs]
  · show (data.drop 42).take 16 = rid
    rw [h42, List.take_left' hr]
  · show (data.drop 58).take 4 = u32be ck
    rw [h58, List.take_left' (u32be_length ck)]
  · show (data.drop 62).take 2 = u16be pl
    rw [h62, List.take_left' (u16be_length pl)]
  · show data.length = 64 + pay.length
    simp [data, mkBytes, u32be, u16be, hm, hs, hr]
    omega

/-- Decoding the bytes `Marshal` wrote recovers the packet `Marshal` left in
its receiver (checksum and length fields recomputed, everything else as
given). -/
theorem Unmarshal_marshalBytes (p : Packet)
    (hm : p.messageID.length = 16) (hs : p.senderID.length = 16)
    (hr : p.recipientID.length = 16)
    (hci : p.chunkIndex < 2 ^ 32) (htc : p.totalChunks < 2 ^ 32)
    (hpayw : bytesWF p.payload) (hlen : p.payload.length ≤ 1400) :
    Unmarshal p.marshalBytes = .ok p.marshalFinal := by
  obtain ⟨hb0, hb1, hf2, hf18, hf22, hf26, hf42, hf58, hf62, hd64, hL⟩ :=
    marshal_fields p.version p.type_ p.chunkIndex p.totalChunks
      (crc32 p.payload) p.payload.length p.messageID p.senderID p.recipientID
      p.payload hm hs hr
  have hbytes : p.marshalBytes = mkBytes p.version p.type_ p.chunkIndex
      p.totalChunks (crc32 p.payload) p.payload.length p.messageID p.senderID
      p.recipientID p.payload := rfl
  have hrid : readPad 16 p.recipientID = p.recipientID := by
    rw [← hr, readPad_length_self]
  unfold Unmarshal
  rw [hbytes, hL, if_neg (by omega), if_neg (by omega), if_neg (by omega)]
  simp only [hb0, hb1, hf2, hf18, hf22, hf26, hf42, hf58, hf62, hd64, hrid,
    beVal_u32be p.chunkIndex hci, beVal_u32be p.totalChunks htc,
    beVal_u32be (crc32 p.payload) (crc32_lt _ hpayw),
    beVal_u16be p.payload.length (by omega)]
  rcases Nat.eq_zero_or_pos p.payload.length with h0 | hpos
  · rw [if_neg (by omega)]
    have hnil : p.payload = [] := List.length_eq_zero.mp h0
    simp [Packet.marshalFinal, hnil]
  · rw [if_pos hpos, if_neg (by omega), readPad_length_self,
      if_neg (by simp)]
    simp [Packet.marshalFinal]

theorem marshalFinal_eq_self (p : Packet) (hck : p.checksum = crc32 p.payload)
    (hpl : p.payloadLen = p.payload.length) : p.marshalFinal = p := by
  cases p
  simp_all [Packet.marshalFinal]

/-- C1: for every well-formed packet with payload at most 1400 bytes,
`Marshal` succeeds, `Unmarshal` of the emitted bytes returns the same
packet, and the checksum field of the encoded form (the big-endian word at
offset 58) is the IEEE CRC-32 of the payload bytes. -/
theorem packet_codec_roundtrip (p : Packet) (hWF : p.WellFormed)
    (hlen : p.payload.length ≤ 1400) :
    p.marshal = .ok p.marshalBytes ∧ Unmarshal p.marshalBytes = .ok p ∧
    beVal (fieldAt p.marshalBytes 58 4) = crc32 p.payload := by
  obtain ⟨h1, h2, hm, hmw, hci, htc, hs, hsw, hr, hrw, hck, hpl, hpayw⟩ := hWF
  refine ⟨?_, ?_, ?_⟩
  · unfold Packet.marshal
    rw [if_neg (by unfold MaxPayloadSize; omega)]
  · have h := Unmarshal_marshalBytes p hm hs hr hci htc hpayw hlen
    rwa [marshalFinal_eq_self p hck hpl] at h
  · obtain ⟨_, _, _, _, _, _, _, hf58, _, _, _⟩ :=
      marshal_fields p.version p.type_ p.chunkIndex p.totalChunks
        (crc32 p.payload) p.payload.length p.messageID p.senderID
        p.recipientID p.payload hm hs hr
    have hbytes : p.marshalBytes = mkBytes p.version p.type_ p.chunkIndex
        p.totalChunks (crc32 p.payload) p.payload.length p.messageID
        p.senderID p.recipientID p.payload := rfl
    rw [hbytes, hf58, beVal_u32be _ (crc32_lt _ hpayw)]

/-- A concrete well-formed one-byte-payload packet. -/
def pWitness : Packet :=
  { version := 1, type_ := 3, messageID := List.replicate 16 2,
    chunkIndex := 0, totalChunks := 1, senderID := List.replicate 16 3,
    recipientID := List.replicate 16 4, checksum := crc32 [65],
    payloadLen := 1, payload := [65] }

/-- Witness for C1 at a concrete packet. -/
theorem packet_codec_roundtrip_witness :
    pWitness.WellFormed ∧ pWitness.payload.length ≤ 1400 ∧
    (pWitness.marshal = .ok pWitness.marshalBytes ∧
     Unmarshal pWitness.marshalBytes = .ok pWitness ∧
     beVal (fieldAt pWitness.marshalBytes 58 4) = crc32 pWitness.payload) :=
  ⟨by decide, by decide, packet_codec_roundtrip pWitness (by decide) (by decide)⟩

/-- C5 counterexample: a 64-byte all-zero datagram is at least 48 bytes long
and its version byte is 0, not 1, yet `Unmarshal` decodes it successfully —
the decoder has no version check at all. -/
theorem unmarshal_accepts_bad_version :
    48 ≤ (List.replicate 64 0).length ∧ byteAt (List.replicate 64 0) 0 ≠ 1 ∧
    Unmarshal (List.replicate 64 0) =
      .ok ⟨0, 0, List.replicate 16 0, 0, 0, List.replicate 16 0,
           List.replicate 16 0, 0, 0, []⟩ :=
  ⟨by decide, by decide, rfl⟩

/-- C5 amended: `Unmarshal` performs no validation of the version byte —
a header-only datagram with any version byte decodes successfully, the
version field merely echoed back; rejection happens only for short input
or a payload checksum mismatch. -/
theorem unmarshal_ignores_version (v : Nat) :
    Unmarshal (v :: List.replicate 63 0) =
      .ok ⟨v, 0, List.replicate 16 0, 0, 0, List.replicate 16 0,
           List.replicate 16 0, 0, 0, []⟩ := rfl

/-! ## Session store (`internal/session/session.go`)

The valkey key/value service is embedded as association lists held in a
`ServerState`; the keys `session:<user>`, `online_users`,
`pending_message:<msg>:chunk:<idx>` and `pending_message:<msg>:count`
become the four fields.  TTLs concern real time only and play no role in
the properties below.  `INCR` is atomic in valkey; here each handler step
is a whole state transition, which models exactly that atomicity. -/

def kvGet {α β : Type} [DecidableEq α] (k : α) : List (α × β) → Option β
  | [] => none
  | (k', v) :: rest => if k = k' then some v else kvGet k rest

def kvSet {α β : Type} [DecidableEq α] (k : α) (v : β) :
    List (α × β) → List (α × β)
  | [] => [(k, v)]
  | (k', v') :: rest =>
      if k = k' then (k, v) :: rest else (k', v') :: kvSet k v rest

def kvDel {α β : Type} [DecidableEq α] (k : α) : List (α × β) → List (α × β)
  | [] => []
  | (k', v') :: rest =>
      if k = k' then kvDel k rest else (k', v') :: kvDel k rest

/-- A member-set add (`SADD`): no duplicate entries. -/
def sadd (k : UUIDb) (s : List UUIDb) : List UUIDb :=
  if k ∈ s then s else k :: s

/-- `session.Session`. -/
structure SessionRec where
  userID : UUIDb
  username : String
  address : String
  lastSeen : Nat
  status : String
  connectAt : Nat
deriving DecidableEq, Repr

/-- The ephemeral key-value state owned by `session.Manager`. -/
structure ServerState where
  sessions : List (UUIDb × SessionRec)
  onlineUsers : List UUIDb
  chunks : List ((UUIDb × Nat) × List Nat)
  counters : List (UUIDb × Nat)
deriving DecidableEq, Repr

/-- `Manager.CreateSession`: writes the session record and adds the user to
the online set. -/
def createSession (st : ServerState) (userID : UUIDb) (username : String)
    (addr : String) (now : Nat) : ServerState :=
  { st with
    sessions := kvSet userID
      ⟨userID, username, addr, now, "online", now⟩ st.sessions,
    onlineUsers := sadd userID st.onlineUsers }

/-- `Manager.GetSession`: the record, or `NotFound`. -/
def getSession (st : ServerState) (userID : UUIDb) : Option SessionRec :=
  kvGet userID st.sessions

/-- `Manager.UpdateLastSeen`: read-modify-write of `last_seen`; errors when
the session is absent. -/
def updateLastSeen (st : ServerState) (userID : UUIDb) (now : Nat) :
    Except String ServerState :=
  match getSession st userID with
  | none => .error "session not found"
  | some s =>
      .ok { st with
        sessions := kvSet userID { s with lastSeen := now } st.sessions }

/-- `Manager.IsUserOnline`: membership in the online set. -/
def isUserOnline (st : ServerState) (userID : UUIDb) : Bool :=
  decide (userID ∈ st.onlineUsers)

/-- `Manager.SavePendingChunk`. -/
def savePendingChunk (st : ServerState) (messageID : UUIDb)
    (chunkIndex : Nat) (data : List Nat) : ServerState :=
  { st with chunks := kvSet (messageID, chunkIndex) data st.chunks }

/-- `Manager.GetPendingChunk`. -/
def getPendingChunk (st : ServerState) (messageID : UUIDb)
    (chunkIndex : Nat) : Except String (List Nat) :=
  match kvGet (messageID, chunkIndex) st.chunks with
  | none => .error "chunk not found"
  | some data => .ok data

/-- `Manager.IncrementChunksReceived`: valkey's atomic `INCR`; an absent
counter counts as 0, the new value is returned. -/
def incrementChunksReceived (st : ServerState) (messageID : UUIDb) :
    Nat × ServerState :=
  let count := (kvGet messageID st.counters).getD 0 + 1
  (count, { st with counters := kvSet messageID count st.counters })

/-- `Manager.DeletePendingMessage`: one batched delete of the chunk keys
`0..total-1` and the counter key. -/
def deletePendingMessage (st : ServerState) (messageID : UUIDb)
    (totalChunks : Nat) : ServerState :=
  { st with
    chunks := (List.range totalChunks).foldl
      (fun acc i => kvDel (messageID, i) acc) st.chunks,
    counters := kvDel messageID st.counters }

/-! ## Protocol engine handlers (`internal/udp/server.go`) -/

/-- The claims a validated JWT yields (`jwt.Service.ValidateToken`). -/
structure JwtClaims where
  userID : UUIDb
  username : String
deriving DecidableEq, Repr

/-- Bytes of an error string, for ERROR packet payloads. -/
def strBytes (s : String) : List Nat :=
  s.toUTF8.toList.map (fun b => b.toNat)

/-- `Server.sendErrorPacket`: an ERROR packet with nil ids, the given
correlation message id and the message text as payload. -/
def errorPacket (messageID : UUIDb) (errorMsg : String) : Packet :=
  { NewPacket PacketTypeError uuidNil uuidNil messageID with
    payload := strBytes errorMsg }

/-- A reassembly task spawn request: message id, sender, recipient, total. -/
structure SpawnReq where
  messageID : UUIDb
  senderID : UUIDb
  recipientID : UUIDb
  totalChunks : Nat
deriving DecidableEq, Repr

/-- What one handler invocation produced: the updated ephemeral state, the
packets sent back and the reassembly tasks spawned. -/
structure HandlerResult where
  state : ServerState
  sent : List Packet
  spawned : List SpawnReq
deriving DecidableEq, Repr

/-- `Server.handleAuth`: validate the token; on failure, ERROR "Invalid
token"; on success create a session for the *claims*' user at the source
address and reply with `NewAckPacket(packet)`. -/
def handleAuth (p : Packet) (authResult : Except String JwtClaims)
    (st : ServerState) (clientAddr : String) (now : Nat) : HandlerResult :=
  match authResult with
  | .error _ => ⟨st, [errorPacket p.messageID "Invalid token"], []⟩
  | .ok claims =>
      let st1 := createSession st claims.userID claims.username clientAddr now
      ⟨st1, [NewAckPacket p], []⟩

/-- `Server.handleVoiceData`: drop silently when the sender has no session;
otherwise refresh `last_seen` (result ignored by the Go code), save the
chunk, atomically increment the per-message counter, ACK, and spawn the
reassembly task exactly when the (`uint32`-truncated) new count equals the
packet's total. -/
def handleVoiceData (p : Packet) (st : ServerState) (now : Nat) :
    HandlerResult :=
  match getSession st p.senderID with
  | none => ⟨st, [], []⟩
  | some _ =>
      let st1 := match updateLastSeen st p.senderID now with
        | .ok s => s
        | .error _ => st
      let st2 := savePendingChunk st1 p.messageID p.chunkIndex p.payload
      let cs := incrementChunksReceived st2 p.messageID
      if cs.1 % 2 ^ 32 = p.totalChunks then
        ⟨cs.2, [NewAckPacket p],
         [⟨p.messageID, p.senderID, p.recipientID, p.totalChunks⟩]⟩
      else
        ⟨cs.2, [NewAckPacket p], []⟩

/-- `Server.handleHeartbeat`: refresh `last_seen`; on error (unknown user)
drop silently, otherwise ACK. -/
def handleHeartbeat (p : Packet) (st : ServerState) (now : Nat) :
    HandlerResult :=
  match updateLastSeen st p.senderID now with
  | .error _ => ⟨st, [], []⟩
  | .ok st1 => ⟨st1, [NewAckPacket p], []⟩

/-- `Server.handlePacket`: unmarshal, then dispatch on the type.  The switch
has cases only for AUTH, VOICE_DATA and HEARTBEAT; every other type —
including LIST_MESSAGES and DOWNLOAD — falls to the default arm, which
logs and drops. -/
def handlePacket (data : List Nat) (authResult : Except String JwtClaims)
    (st : ServerState) (clientAddr : String) (now : Nat) : HandlerResult :=
  match Unmarshal data with
  | .error _ => ⟨st, [], []⟩
  | .ok p =>
      if p.type_ = PacketTypeAuth then
        handleAuth p authResult st clientAddr now
      else if p.type_ = PacketTypeVoiceData then
        handleVoiceData p st now
      else if p.type_ = PacketTypeHeartbeat then
        handleHeartbeat p st now
      else
        ⟨st, [], []⟩

/-! ## Reassembly and delivery (`Server.processCompleteMessage`,
`Server.forwardMessageToRecipient`)

The task's interactions with the blob store, the ledger and the socket are
recorded as an ordered trace of actions; the blob-store outcome is an
oracle parameter since it is decided by the external service. -/

def MessageStatusPending : String := "pending"
def MessageStatusTransmitted : String := "transmitted"
def MessageStatusDelivered : String := "delivered"
def MessageStatusListened : String := "listened"
def MessageStatusFailed : String := "failed"

/-- The fields of `db.VoiceMessage` that `processCompleteMessage` sets. -/
structure VMsg where
  id : UUIDb
  senderID : UUIDb
  recipientID : UUIDb
  filePath : String
  fileSize : Nat
  audioFormat : String
  totalChunks : Nat
  chunksReceived : Nat
  status : String
  transmittedAt : Nat
deriving DecidableEq, Repr

/-- One observable side effect of the reassembly task. -/
inductive PAction where
  | updateStatus (msg : UUIDb) (status : String)
  | uploadBlob (msg : UUIDb) (data : List Nat) (format : String)
  | createRecord (rec : VMsg)
  | forwardPacket (pkt : Packet) (addr : String)
  | updateRecord (msg : UUIDb) (status : String) (deliveredAt : Nat)
  | deletePending (msg : UUIDb) (total : Nat)
deriving DecidableEq, Repr

/-- The chunk-retrieval loop: chunks `0..total-1` in order, aborting at the
first `GetPendingChunk` failure. -/
def collectChunks (st : ServerState) (messageID : UUIDb) (totalChunks : Nat) :
    Except String (List (List Nat)) :=
  (List.range totalChunks).mapM (fun i => getPendingChunk st messageID i)

/-- One forwarded chunk slice: `data[i*1400 : min((i+1)*1400, len)]`. -/
def chunkSlice (data : List Nat) (i : Nat) : List Nat :=
  (data.drop (i * MaxPayloadSize)).take MaxPayloadSize

/-- `Server.forwardMessageToRecipient`: look up the recipient's session for
its address (error: give up), re-chunk at `MaxPayloadSize`, send each chunk
as a VOICE_DATA packet, then update the ledger row to `delivered`. -/
def forwardMessage (st : ServerState) (messageID senderID recipientID : UUIDb)
    (data : List Nat) (totalChunks : Nat) (now : Nat) : List PAction :=
  match getSession st recipientID with
  | none => []
  | some sess =>
      ((List.range totalChunks).map (fun i =>
        PAction.forwardPacket
          (NewVoiceDataPacket senderID recipientID messageID i totalChunks
            (chunkSlice data i)) sess.address)) ++
      [PAction.updateRecord messageID MessageStatusDelivered now]

/-- `Server.processCompleteMessage` as its trace of actions: retrieve all
chunks (on a miss, mark the message failed and abort), assemble, upload
(the attempt is recorded; on failure the object path was the empty string
and the code continues), create the ledger record with status
`transmitted`, and finally route: forward when the recipient is in the
online set, otherwise delete the pending keys.  The Go code reaches the
`DeletePendingMessage` cleanup only in the offline `else` arm. -/
def processCompleteMessage (st : ServerState)
    (uploadResult : Except Unit String)
    (messageID senderID recipientID : UUIDb) (totalChunks : Nat)
    (now : Nat) : List PAction :=
  match collectChunks st messageID totalChunks with
  | .error _ => [PAction.updateStatus messageID MessageStatusFailed]
  | .ok chunks =>
      let assembledData := chunks.flatten
      let objectPath := match uploadResult with
        | .ok path => path
        | .error _ => ""
      let voiceMessage : VMsg :=
        ⟨messageID, senderID, recipientID, objectPath, assembledData.length,
         "opus", totalChunks, totalChunks, MessageStatusTransmitted, now⟩
      PAction.uploadBlob messageID assembledData "opus" ::
      PAction.createRecord voiceMessage ::
      (if isUserOnline st recipientID then
        forwardMessage st messageID senderID recipientID assembledData
          totalChunks now
      else
        [PAction.deletePending messageID totalChunks])

/-! ## Blob-store object keys (`pkg/s3storage/minio.go`) -/

/-- Go's `%02d`: two-digit zero padding. -/
def pad2 (n : Nat) : String :=
  if n < 10 then "0" ++ toString n else toString n

/-- The object name `UploadVoiceMessage` computes:
`fmt.Sprintf("messages/%d/%02d/%02d/%s.%s", now.Year(), now.Day(),
now.Month(), messageID, audioFormat)` — note the day is printed before
the month. -/
def uploadObjectName (year month day : Nat) (messageID audioFormat : String) :
    String :=
  "messages/" ++ toString year ++ "/" ++ pad2 day ++ "/" ++ pad2 month ++
    "/" ++ messageID ++ "." ++ audioFormat

/-- Modelled from the spec: the canonical object key
`messages/YYYY/MM/DD/<msg_id>.<format>` with the zero-padded month before
the day, as §4.4 and the code's own comment describe. -/
def specObjectName (year month day : Nat) (messageID audioFormat : String) :
    String :=
  "messages/" ++ toString year ++ "/" ++ pad2 month ++ "/" ++ pad2 day ++
    "/" ++ messageID ++ "." ++ audioFormat

/-! ## Concrete fixtures used by witnesses and counterexamples -/

def stEmpty : ServerState := ⟨[], [], [], []⟩

def u1 : UUIDb := 1 :: List.replicate 15 0
def u2 : UUIDb := 2 :: List.replicate 15 0
def mU : UUIDb := 7 :: List.replicate 15 0
def sU : UUIDb := 8 :: List.replicate 15 0
def rU : UUIDb := 9 :: List.replicate 15 0

/-! ## C6: VOICE_DATA without a session is dropped silently -/

/-- C6: a VOICE_DATA packet whose sender has no session produces no reply
packet, spawns nothing, and leaves every piece of ephemeral state — the
chunk store and the per-message counter included — unchanged. -/
theorem voice_without_session_drops (p : Packet) (st : ServerState)
    (now : Nat) (h : getSession st p.senderID = none) :
    handleVoiceData p st now = ⟨st, [], []⟩ := by
  unfold handleVoiceData
  rw [h]

/-- Witness for C6: concrete VOICE_DATA packet against the empty state. -/
theorem voice_without_session_drops_witness :
    getSession stEmpty (NewVoiceDataPacket u2 u1 mU 0 1 [88]).senderID =
      none ∧
    handleVoiceData (NewVoiceDataPacket u2 u1 mU 0 1 [88]) stEmpty 5 =
      ⟨stEmpty, [], []⟩ :=
  ⟨rfl, voice_without_session_drops (NewVoiceDataPacket u2 u1 mU 0 1 [88])
    stEmpty 5 rfl⟩

/-! ## C3: the AUTH reply -/

/-- C3: evaluating `handleAuth` at a successful authentication (token for
user `u1`, packet sender id `uuid.Nil` as the client sends) shows the
divergence: the session is correctly keyed by the authenticated user, but
the reply is `NewAckPacket(packet)` — type ACK `0x04`, not AUTH_ACK
`0x02` — and its recipient id is the packet's sender id (`uuid.Nil`
here), not the authenticated user's id.  The client's `Authenticate`
waits for `PacketTypeAuthAck` and reads its own canonical id from
`RecipientID`, so the code contradicts its own client. -/
theorem auth_reply_is_plain_ack :
    getSession (handleAuth
        { NewPacket PacketTypeAuth uuidNil uuidNil mU with
          payload := [1, 2, 3] }
        (.ok ⟨u1, "alice"⟩) stEmpty "1.2.3.4:5" 0).state u1 =
      some ⟨u1, "alice", "1.2.3.4:5", 0, "online", 0⟩ ∧
    (handleAuth
        { NewPacket PacketTypeAuth uuidNil uuidNil mU with
          payload := [1, 2, 3] }
        (.ok ⟨u1, "alice"⟩) stEmpty "1.2.3.4:5" 0).sent =
      [NewAckPacket { NewPacket PacketTypeAuth uuidNil uuidNil mU with
          payload := [1, 2, 3] }] ∧
    (NewAckPacket { NewPacket PacketTypeAuth uuidNil uuidNil mU with
        payload := [1, 2, 3] }).type_ = PacketTypeAck ∧
    PacketTypeAck ≠ PacketTypeAuthAck ∧
    (NewAckPacket { NewPacket PacketTypeAuth uuidNil uuidNil mU with
        payload := [1, 2, 3] }).recipientID = uuidNil ∧
    uuidNil ≠ u1 := by
  refine ⟨by decide, rfl, rfl, by decide, rfl, by decide⟩

/-! ## C4: LIST_MESSAGES has no handler -/

/-- C4: the dispatch switch in `handlePacket` has arms only for AUTH,
VOICE_DATA and HEARTBEAT; a decoded packet of type LIST_MESSAGES falls to
the default arm, so the server sends nothing, spawns nothing, queries
nothing and leaves the state untouched. -/
theorem list_messages_falls_to_default (data : List Nat) (p : Packet)
    (authResult : Except String JwtClaims) (st : ServerState)
    (addr : String) (now : Nat) (hdec : Unmarshal data = .ok p)
    (hty : p.type_ = PacketTypeListMessages) :
    handlePacket data authResult st addr now = ⟨st, [], []⟩ := by
  unfold handlePacket
  rw [hdec]
  show (if p.type_ = PacketTypeAuth then handleAuth p authResult st addr now
    else if p.type_ = PacketTypeVoiceData then handleVoiceData p st now
    else if p.type_ = PacketTypeHeartbeat then handleHeartbeat p st now
    else ⟨st, [], []⟩) = ⟨st, [], []⟩
  rw [hty]
  rw [if_neg (by decide), if_neg (by decide), if_neg (by decide)]

/-- Witness for C4: a concrete LIST_MESSAGES datagram (version 1, type
0x06) is decoded and then dropped by the dispatcher. -/
theorem list_messages_falls_to_default_witness :
    Unmarshal (1 :: 6 :: List.replicate 62 0) =
      .ok ⟨1, 6, List.replicate 16 0, 0, 0, List.replicate 16 0,
           List.replicate 16 0, 0, 0, []⟩ ∧
    (⟨1, 6, List.replicate 16 0, 0, 0, List.replicate 16 0,
      List.replicate 16 0, 0, 0, []⟩ : Packet).type_ =
      PacketTypeListMessages ∧
    handlePacket (1 :: 6 :: List.replicate 62 0) (.error "no token") stEmpty
      "1.2.3.4:5" 0 = ⟨stEmpty, [], []⟩ :=
  ⟨rfl, rfl,
   list_messages_falls_to_default (1 :: 6 :: List.replicate 62 0)
     ⟨1, 6, List.replicate 16 0, 0, 0, List.replicate 16 0,
      List.replicate 16 0, 0, 0, []⟩
     (.error "no token") stEmpty "1.2.3.4:5" 0 rfl rfl⟩

/-! ## C9: the blob-store object key -/

/-- C9: on 2026-10-11 (year 2026, month 10, day 11) the code computes the
object key `messages/2026/11/10/m1.opus` — day and month swapped — while
the canonical key said by the spec and by the code's own comment is
`messages/2026/10/11/m1.opus`. -/
theorem object_key_swaps_day_and_month :
    uploadObjectName 2026 10 11 "m1" "opus" =
      "messages/2026/11/10/m1.opus" ∧
    specObjectName 2026 10 11 "m1" "opus" =
      "messages/2026/10/11/m1.opus" ∧
    uploadObjectName 2026 10 11 "m1" "opus" ≠
      specObjectName 2026 10 11 "m1" "opus" :=
  ⟨by decide, by decide, by decide⟩

/-! ## C10: the acknowledgement mirrors the acknowledged packet -/

/-- C10: every acknowledgement the server emits — for AUTH on token
success, for VOICE_DATA and HEARTBEAT when the sender has a session — is
`NewAckPacket` of the incoming packet: type ACK, the same message id,
chunk index and total chunks, the sender and recipient ids swapped.
These are exactly the fields `sendWithRetry` matches on. -/
theorem ack_mirrors_original (p : Packet) (claims : JwtClaims)
    (st : ServerState) (sess : SessionRec) (addr : String) (now : Nat)
    (hs : getSession st p.senderID = some sess) :
    (NewAckPacket p).type_ = PacketTypeAck ∧
    (NewAckPacket p).messageID = p.messageID ∧
    (NewAckPacket p).chunkIndex = p.chunkIndex ∧
    (NewAckPacket p).totalChunks = p.totalChunks ∧
    (NewAckPacket p).senderID = p.recipientID ∧
    (NewAckPacket p).recipientID = p.senderID ∧
    (handleAuth p (.ok claims) st addr now).sent = [NewAckPacket p] ∧
    (handleVoiceData p st now).sent = [NewAckPacket p] ∧
    (handleHeartbeat p st now).sent = [NewAckPacket p] := by
  refine ⟨rfl, rfl, rfl, rfl, rfl, rfl, rfl, ?_, ?_⟩
  · simp only [handleVoiceData, hs]
    split <;> rfl
  · simp only [handleHeartbeat, updateLastSeen, hs]

/-- Witness for C10 at a concrete packet and state. -/
theorem ack_mirrors_original_witness :
    getSession ⟨[(u1, ⟨u1, "alice", "a:1", 0, "online", 0⟩)], [u1], [], []⟩
      (NewVoiceDataPacket u1 u2 mU 3 4 [65]).senderID =
      some ⟨u1, "alice", "a:1", 0, "online", 0⟩ ∧
    ((NewAckPacket (NewVoiceDataPacket u1 u2 mU 3 4 [65])).type_ =
        PacketTypeAck ∧
     (NewAckPacket (NewVoiceDataPacket u1 u2 mU 3 4 [65])).messageID =
        (NewVoiceDataPacket u1 u2 mU 3 4 [65]).messageID ∧
     (NewAckPacket (NewVoiceDataPacket u1 u2 mU 3 4 [65])).chunkIndex =
        (NewVoiceDataPacket u1 u2 mU 3 4 [65]).chunkIndex ∧
     (NewAckPacket (NewVoiceDataPacket u1 u2 mU 3 4 [65])).totalChunks =
        (NewVoiceDataPacket u1 u2 mU 3 4 [65]).totalChunks ∧
     (NewAckPacket (NewVoiceDataPacket u1 u2 mU 3 4 [65])).senderID =
        (NewVoiceDataPacket u1 u2 mU 3 4 [65]).recipientID ∧
     (NewAckPacket (NewVoiceDataPacket u1 u2 mU 3 4 [65])).recipientID =
        (NewVoiceDataPacket u1 u2 mU 3 4 [65]).senderID ∧
     (handleAuth (NewVoiceDataPacket u1 u2 mU 3 4 [65])
        (.ok ⟨u1, "alice"⟩)
        ⟨[(u1, ⟨u1, "alice", "a:1", 0, "online", 0⟩)], [u1], [], []⟩
        "a:1" 0).sent =
        [NewAckPacket (NewVoiceDataPacket u1 u2 mU 3 4 [65])] ∧
     (handleVoiceData (NewVoiceDataPacket u1 u2 mU 3 4 [65])
        ⟨[(u1, ⟨u1, "alice", "a:1", 0, "online", 0⟩)], [u1], [], []⟩
        0).sent =
        [NewAckPacket (NewVoiceDataPacket u1 u2 mU 3 4 [65])] ∧
     (handleHeartbeat (NewVoiceDataPacket u1 u2 mU 3 4 [65])
        ⟨[(u1, ⟨u1, "alice", "a:1", 0, "online", 0⟩)], [u1], [], []⟩
        0).sent =
        [NewAckPacket (NewVoiceDataPacket u1 u2 mU 3 4 [65])]) :=
  ⟨rfl, ack_mirrors_original (NewVoiceDataPacket u1 u2 mU 3 4 [65])
    ⟨u1, "alice"⟩
    ⟨[(u1, ⟨u1, "alice", "a:1", 0, "online", 0⟩)], [u1], [], []⟩
    ⟨u1, "alice", "a:1", 0, "online", 0⟩ "a:1" 0 rfl⟩

/-! ## C7 / C8: the reassembly trace -/

/-- Is this action the `DeletePendingMessage` cleanup? -/
def isCleanup : PAction → Bool
  | PAction.deletePending _ _ => true
  | _ => false

/-- Does this action write the `failed` status anywhere? -/
def marksFailed : PAction → Bool
  | PAction.updateStatus _ s => s == MessageStatusFailed
  | PAction.createRecord rec => rec.status == MessageStatusFailed
  | PAction.updateRecord _ s _ => s == MessageStatusFailed
  | _ => false

/-- Is this action a blob-store upload attempt? -/
def isUpload : PAction → Bool
  | PAction.uploadBlob _ _ _ => true
  | _ => false

theorem forwardMessage_actions (st : ServerState)
    (messageID senderID recipientID : UUIDb) (data : List Nat)
    (totalChunks now : Nat) (a : PAction)
    (ha : a ∈ forwardMessage st messageID senderID recipientID data
      totalChunks now) :
    isCleanup a = false ∧ marksFailed a = false ∧ isUpload a = false := by
  unfold forwardMessage at ha
  cases hgs : getSession st recipientID with
  | none => rw [hgs] at ha; simp at ha
  | some sess =>
      rw [hgs, List.mem_append] at ha
      rcases ha with ha | ha
      · rw [List.mem_map] at ha
        obtain ⟨i, _, rfl⟩ := ha
        exact ⟨rfl, rfl, rfl⟩
      · rw [List.mem_singleton] at ha
        subst ha
        exact ⟨rfl, rfl, rfl⟩

def stOnline : ServerState :=
  ⟨[(rU, ⟨rU, "bob", "b:1", 0, "online", 0⟩)], [rU],
   [((mU, 0), [65, 66])], [(mU, 1)]⟩

def stOffline : ServerState := ⟨[], [], [((mU, 0), [65, 66])], [(mU, 1)]⟩

/-- C7 counterexample: with every chunk present, a successful upload and
the recipient online, the reassembly trace forwards the message and
updates the ledger row, but contains no `DeletePendingMessage` action —
the cleanup is not performed "regardless of route outcome". -/
theorem cleanup_missing_when_recipient_online :
    isUserOnline stOnline rU = true ∧
    collectChunks stOnline mU 1 = .ok [[65, 66]] ∧
    (processCompleteMessage stOnline (.ok "key") mU sU rU 1 3).filter
      isCleanup = [] :=
  ⟨by decide, rfl, by decide⟩

/-- C7 amended: `processCompleteMessage` reaches the
`DeletePendingMessage` cleanup only in the offline route branch: when the
recipient is not in the online set the pending keys are deleted, and when
the recipient is online (the message is forwarded) no cleanup action
occurs at all. -/
theorem cleanup_only_in_offline_branch (st : ServerState)
    (uploadResult : Except Unit String)
    (messageID senderID recipientID : UUIDb) (totalChunks now : Nat)
    (chunks : List (List Nat))
    (hc : collectChunks st messageID totalChunks = .ok chunks) :
    (isUserOnline st recipientID = false →
      PAction.deletePending messageID totalChunks ∈
        processCompleteMessage st uploadResult messageID senderID
          recipientID totalChunks now) ∧
    (isUserOnline st recipientID = true →
      (processCompleteMessage st uploadResult messageID senderID
        recipientID totalChunks now).filter isCleanup = []) := by
  unfold processCompleteMessage
  rw [hc]
  constructor
  · intro hoff
    simp [hoff, List.mem_cons]
  · intro hon
    simp only [hon, if_true, List.filter]
    show (List.filter isCleanup (forwardMessage st messageID senderID
      recipientID chunks.flatten totalChunks now)) = []
    rw [List.filter_eq_nil_iff]
    intro a ha
    simp [(forwardMessage_actions st messageID senderID recipientID
      chunks.flatten totalChunks now a ha).1]

/-- Witness for the amended C7 at a concrete offline state. -/
theorem cleanup_only_in_offline_branch_witness :
    collectChunks stOffline mU 1 = .ok [[65, 66]] ∧
    ((isUserOnline stOffline rU = false →
       PAction.deletePending mU 1 ∈
         processCompleteMessage stOffline (.ok "key") mU sU rU 1 3) ∧
     (isUserOnline stOffline rU = true →
       (processCompleteMessage stOffline (.ok "key") mU sU rU 1 3).filter
         isCleanup = [])) :=
  ⟨rfl, cleanup_only_in_offline_branch stOffline (.ok "key") mU sU rU 1 3
    [[65, 66]] rfl⟩

/-- C8 counterexample: when the blob-store upload fails during reassembly
(chunks all present, recipient offline), the trace contains no action
writing the `failed` status; instead the ledger record is created with
status `transmitted` and an empty file path. -/
theorem upload_failure_not_marked_failed :
    (processCompleteMessage stOffline (.error ()) mU sU rU 1 3).filter
      marksFailed = [] ∧
    PAction.createRecord
        ⟨mU, sU, rU, "", 2, "opus", 1, 1, MessageStatusTransmitted, 3⟩ ∈
      processCompleteMessage stOffline (.error ()) mU sU rU 1 3 :=
  ⟨by decide, by decide⟩

/-- C8 amended: a failed upload is not retried (exactly one upload attempt
appears in the trace) and does not mark the message `failed`; the engine
still writes the ledger record, with status `transmitted` and an empty
file path.  The `failed` status is written only when a chunk is missing
during assembly. -/
theorem upload_failure_still_transmitted (st : ServerState)
    (messageID senderID recipientID : UUIDb) (totalChunks now : Nat)
    (chunks : List (List Nat))
    (hc : collectChunks st messageID totalChunks = .ok chunks) :
    PAction.createRecord
        ⟨messageID, senderID, recipientID, "", chunks.flatten.length,
         "opus", totalChunks, totalChunks, MessageStatusTransmitted, now⟩ ∈
      processCompleteMessage st (.error ()) messageID senderID recipientID
        totalChunks now ∧
    (processCompleteMessage st (.error ()) messageID senderID recipientID
      totalChunks now).filter marksFailed = [] ∧
    ((processCompleteMessage st (.error ()) messageID senderID recipientID
      totalChunks now).filter isUpload).length = 1 := by
  unfold processCompleteMessage
  rw [hc]
  have hforward : ∀ a ∈ forwardMessage st messageID senderID recipientID
      chunks.flatten totalChunks now,
      marksFailed a = false ∧ isUpload a = false := fun a ha =>
    ⟨(forwardMessage_actions st messageID senderID recipientID
        chunks.flatten totalChunks now a ha).2.1,
     (forwardMessage_actions st messageID senderID recipientID
        chunks.flatten totalChunks now a ha).2.2⟩
  refine ⟨by simp [List.mem_cons], ?_, ?_⟩
  · simp only [List.filter]
    show (List.filter marksFailed (if isUserOnline st recipientID then
      forwardMessage st messageID senderID recipientID chunks.flatten
        totalChunks now
      else [PAction.deletePending messageID totalChunks])) = []
    by_cases hon : isUserOnline st recipientID
    · rw [if_pos hon, List.filter_eq_nil_iff]
      intro a ha
      simp [(hforward a ha).1]
    · rw [if_neg hon]
      rfl
  · simp only [List.filter]
    show (PAction.uploadBlob messageID chunks.flatten "opus" ::
      List.filter isUpload (if isUserOnline st recipientID then
        forwardMessage st messageID senderID recipientID chunks.flatten
          totalChunks now
        else [PAction.deletePending messageID totalChunks])).length = 1
    have : (List.filter isUpload (if isUserOnline st recipientID then
        forwardMessage st messageID senderID recipientID chunks.flatten
          totalChunks now
        else [PAction.deletePending messageID totalChunks])) = [] := by
      by_cases hon : isUserOnline st recipientID
      · rw [if_pos hon, List.filter_eq_nil_iff]
        intro a ha
        simp [(hforward a ha).2]
      · rw [if_neg hon]
        rfl
    rw [this]
    rfl

/-- Witness for the amended C8 at a concrete state. -/
theorem upload_failure_still_transmitted_witness :
    collectChunks stOffline mU 1 = .ok [[65, 66]] ∧
    (PAction.createRecord
        ⟨mU, sU, rU, "", 2, "opus", 1, 1, MessageStatusTransmitted, 3⟩ ∈
      processCompleteMessage stOffline (.error ()) mU sU rU 1 3 ∧
    (processCompleteMessage stOffline (.error ()) mU sU rU 1 3).filter
      marksFailed = [] ∧
    ((processCompleteMessage stOffline (.error ()) mU sU rU 1 3).filter
      isUpload).length = 1) :=
  ⟨rfl, upload_failure_still_transmitted stOffline mU sU rU 1 3 [[65, 66]]
    rfl⟩

/-! ## C2: completion uniqueness

The `INCR` the handlers race on is atomic in the external key-value
service, so every interleaving of concurrent `handleVoiceData` executions
for one message is equivalent to some sequential order of whole-handler
steps; `runVoiceSeq` ranges over all such orders. -/

/-- The current per-message counter (an absent key reads as 0, as `INCR`
treats it). -/
def counterOf (st : ServerState) (messageID : UUIDb) : Nat :=
  (kvGet messageID st.counters).getD 0

/-- A serialised sequence of `handleVoiceData` executions; returns the
final state and how many reassembly tasks were spawned in total. -/
def runVoiceSeq (now : Nat) : List Packet → ServerState → ServerState × Nat
  | [], st => (st, 0)
  | p :: ps, st =>
      let r := handleVoiceData p st now
      let rest := runVoiceSeq now ps r.state
      (rest.1, r.spawned.length + rest.2)

theorem kvGet_kvSet_self {α β : Type} [DecidableEq α] (k : α) (v : β)
    (l : List (α × β)) : kvGet k (kvSet k v l) = some v := by
  induction l with
  | nil => simp [kvSet, kvGet]
  | cons hd tl ih =>
      obtain ⟨k', v'⟩ := hd
      by_cases h : k = k'
      · simp [kvSet, kvGet, h]
      · simp [kvSet, kvGet, h, ih]

theorem kvGet_kvSet_ne {α β : Type} [DecidableEq α] (k k2 : α) (v : β)
    (l : List (α × β)) (h : k2 ≠ k) :
    kvGet k2 (kvSet k v l) = kvGet k2 l := by
  induction l with
  | nil => simp [kvSet, kvGet, h]
  | cons hd tl ih =>
      obtain ⟨k', v'⟩ := hd
      by_cases h2 : k = k'
      · subst h2
        simp [kvSet, kvGet, h]
      · simp only [kvSet, if_neg h2, kvGet]
        split
        · rfl
        · exact ih

/-- Full characterisation of `handleVoiceData` when the sender's session
exists: last-seen refreshed, chunk stored, counter bumped by one, ACK
sent, spawn exactly when the truncated new count equals the total. -/
theorem handleVoiceData_some (p : Packet) (st : ServerState) (now : Nat)
    (s : SessionRec) (hs : getSession st p.senderID = some s) :
    handleVoiceData p st now =
      if (counterOf st p.messageID + 1) % 2 ^ 32 = p.totalChunks then
        ⟨⟨kvSet p.senderID { s with lastSeen := now } st.sessions,
          st.onlineUsers,
          kvSet (p.messageID, p.chunkIndex) p.payload st.chunks,
          kvSet p.messageID (counterOf st p.messageID + 1) st.counters⟩,
         [NewAckPacket p],
         [⟨p.messageID, p.senderID, p.recipientID, p.totalChunks⟩]⟩
      else
        ⟨⟨kvSet p.senderID { s with lastSeen := now } st.sessions,
          st.onlineUsers,
          kvSet (p.messageID, p.chunkIndex) p.payload st.chunks,
          kvSet p.messageID (counterOf st p.messageID + 1) st.counters⟩,
         [NewAckPacket p], []⟩ := by
  unfold handleVoiceData updateLastSeen savePendingChunk
    incrementChunksReceived counterOf
  rw [hs]

theorem handleVoiceData_counter (p : Packet) (st : ServerState) (now : Nat)
    (s : SessionRec) (hs : getSession st p.senderID = some s) :
    counterOf (handleVoiceData p st now).state p.messageID =
      counterOf st p.messageID + 1 := by
  rw [handleVoiceData_some p st now s hs]
  split <;> simp [counterOf, kvGet_kvSet_self]

theorem handleVoiceData_spawned (p : Packet) (st : ServerState) (now : Nat)
    (s : SessionRec) (hs : getSession st p.senderID = some s) :
    (handleVoiceData p st now).spawned.length =
      if (counterOf st p.messageID + 1) % 2 ^ 32 = p.totalChunks then 1
      else 0 := by
  rw [handleVoiceData_some p st now s hs]
  split <;> simp_all

theorem handleVoiceData_sessions_isSome (p : Packet) (st : ServerState)
    (now : Nat) (u : UUIDb) :
    (getSession (handleVoiceData p st now).state u).isSome =
      (getSession st u).isSome := by
  cases hs : getSession st p.senderID with
  | none =>
      unfold handleVoiceData
      rw [hs]
  | some s =>
      have hstate :
          (handleVoiceData p st now).state.sessions =
            kvSet p.senderID { s with lastSeen := now } st.sessions := by
        rw [handleVoiceData_some p st now s hs]
        split <;> rfl
      unfold getSession
      rw [hstate]
      by_cases hu : u = p.senderID
      · subst hu
        rw [kvGet_kvSet_self]
        unfold getSession at hs
        rw [hs]
        rfl
      · rw [kvGet_kvSet_ne _ _ _ _ hu]

/-- The number of spawns a run of `n` increments starting from counter
value `c` produces, by the `count == total` condition. -/
def spawnCount (c t : Nat) : Nat → Nat
  | 0 => 0
  | n + 1 => (if (c + 1) % 2 ^ 32 = t then 1 else 0) + spawnCount (c + 1) t n

theorem runVoiceSeq_spawnCount (now : Nat) (m : UUIDb) (t : Nat)
    (ps : List Packet) (st : ServerState)
    (hall : ∀ p ∈ ps, p.messageID = m ∧ p.totalChunks = t ∧
      (getSession st p.senderID).isSome = true) :
    (runVoiceSeq now ps st).2 = spawnCount (counterOf st m) t ps.length := by
  induction ps generalizing st with
  | nil => rfl
  | cons p ps ih =>
      obtain ⟨hm, ht, hsess⟩ := hall p (List.mem_cons_self p ps)
      obtain ⟨s, hs⟩ := Option.isSome_iff_exists.mp hsess
      have hcnt : counterOf (handleVoiceData p st now).state m =
          counterOf st m + 1 := by
        rw [← hm]
        exact handleVoiceData_counter p st now s hs
      have hspn : (handleVoiceData p st now).spawned.length =
          if (counterOf st m + 1) % 2 ^ 32 = t then 1 else 0 := by
        rw [← hm, ← ht]
        exact handleVoiceData_spawned p st now s hs
      have hall' : ∀ q ∈ ps, q.messageID = m ∧ q.totalChunks = t ∧
          (getSession (handleVoiceData p st now).state q.senderID).isSome =
            true := by
        intro q hq
        refine ⟨(hall q (List.mem_cons_of_mem p hq)).1,
                (hall q (List.mem_cons_of_mem p hq)).2.1, ?_⟩
        rw [handleVoiceData_sessions_isSome]
        exact (hall q (List.mem_cons_of_mem p hq)).2.2
      show (runVoiceSeq now (p :: ps) st).2 =
        spawnCount (counterOf st m) t (p :: ps).length
      unfold runVoiceSeq
      simp only [List.length_cons, spawnCount]
      rw [ih _ hall', hcnt, hspn]

theorem spawnCount_zero (c t n : Nat) (hct : t ≤ c) (hn : c + n < 2 ^ 32) :
    spawnCount c t n = 0 := by
  induction n generalizing c with
  | zero => rfl
  | succ n ih =>
      have h1 : (c + 1) % 2 ^ 32 = c + 1 := Nat.mod_eq_of_lt (by omega)
      unfold spawnCount
      rw [h1, if_neg (by omega), ih (c + 1) (by omega) (by omega)]

theorem spawnCount_one (c t n : Nat) (h1 : c < t) (h2 : t ≤ c + n)
    (hn : c + n < 2 ^ 32) : spawnCount c t n = 1 := by
  induction n generalizing c with
  | zero => omega
  | succ n ih =>
      have hmod : (c + 1) % 2 ^ 32 = c + 1 := Nat.mod_eq_of_lt (by omega)
      unfold spawnCount
      rw [hmod]
      by_cases heq : c + 1 = t
      · rw [if_pos heq, spawnCount_zero (c + 1) t n (by omega) (by omega)]
      · rw [if_neg heq, ih (c + 1) (by omega) (by omega) (by omega)]

/-- C2: over any serialisation of VOICE_DATA handler executions for one
message — duplicate chunk indices from client retries included, since
nothing below constrains `chunkIndex` — with the counter starting at 0,
at least as many executions as `total_chunks ≥ 1`, and fewer than `2^32`
executions, the reassembly task is spawned exactly once: by the unique
handler whose atomic increment returns exactly `total_chunks`. -/
theorem completion_fires_exactly_once (now : Nat) (m : UUIDb) (t : Nat)
    (ps : List Packet) (st : ServerState)
    (hall : ∀ p ∈ ps, p.messageID = m ∧ p.totalChunks = t ∧
      (getSession st p.senderID).isSome = true)
    (hc0 : counterOf st m = 0) (ht1 : 1 ≤ t) (htn : t ≤ ps.length)
    (hn : ps.length < 2 ^ 32) :
    (runVoiceSeq now ps st).2 = 1 := by
  rw [runVoiceSeq_spawnCount now m t ps st hall, hc0]
  exact spawnCount_one 0 t ps.length (by omega) (by omega) (by omega)

def stSess : ServerState :=
  ⟨[(u1, ⟨u1, "alice", "a:1", 0, "online", 0⟩)], [u1], [], []⟩

def pDup : Packet := NewVoiceDataPacket u1 u2 mU 0 2 [65]

/-- Witness for C2: the same chunk (index 0 of 2) delivered twice — a
client retry — still spawns reassembly exactly once. -/
theorem completion_fires_exactly_once_witness :
    (∀ p ∈ [pDup, pDup], p.messageID = mU ∧ p.totalChunks = 2 ∧
      (getSession stSess p.senderID).isSome = true) ∧
    counterOf stSess mU = 0 ∧ 1 ≤ 2 ∧
    2 ≤ ([pDup, pDup] : List Packet).length ∧
    ([pDup, pDup] : List Packet).length < 2 ^ 32 ∧
    (runVoiceSeq 9 [pDup, pDup] stSess).2 = 1 :=
  ⟨by decide, by decide, by decide, by decide, by decide,
   completion_fires_exactly_once 9 mU 2 [pDup, pDup] stSess (by decide)
     (by decide) (by decide) (by decide) (by decide)⟩

end Laba
